import Mathlib

/-!
Verification development for the yahoo-finance-fix library.

The Python sources under study are `yfinance/utils.py` and `yfinance/base.py`.
Pandas data frames are modelled as ordered association lists from column
names to columns of exact rationals; pandas `df.copy()` has value semantics,
so the functional embedding represents a copy simply by reusing the value.
Fallible operations (column access that can raise `KeyError`, selection of
missing columns) are embedded in `Except`, mirroring Python exceptions.
-/

namespace YF

/-- A column of a price table.  Cells are exact rationals; the claims under
study always concern tables whose relevant cells are non-null numbers. -/
abbrev Col := List ℚ

/-- A pandas DataFrame restricted to what the claims need: an ordered list
of named columns. -/
structure Frame where
  cols : List (String × Col)
deriving DecidableEq

/-- Column lookup, `df[name]` without the raising behaviour: `none` means
the column is absent. -/
def Frame.get (f : Frame) (n : String) : Option Col :=
  (f.cols.find? (fun p => p.1 == n)).map (fun p => p.2)

/-- Column lookup with a default, for places where the source guarantees
presence. -/
def Frame.getD (f : Frame) (n : String) : Col :=
  (f.get n).getD []

/-- Membership test, `name in df`. -/
def Frame.hasCol (f : Frame) (n : String) : Bool :=
  f.cols.any (fun p => p.1 == n)

/-- Column assignment `df[name] = v`: replaces an existing column in place,
otherwise appends a new column at the end (pandas semantics). -/
def Frame.set (f : Frame) (n : String) (v : Col) : Frame :=
  if f.hasCol n then ⟨f.cols.map (fun p => if p.1 == n then (n, v) else p)⟩
  else ⟨f.cols ++ [(n, v)]⟩

/-- Column removal, `df.drop(columns=ns)`. -/
def Frame.drop (f : Frame) (ns : List String) : Frame :=
  ⟨f.cols.filter (fun p => !(ns.contains p.1))⟩

/-- Helper for `df.rename(columns=m)`: the new name of column `n`. -/
def rename_map (m : List (String × String)) (n : String) : String :=
  ((m.find? (fun p => p.1 == n)).map (fun p => p.2)).getD n

/-- Column renaming, `df.rename(columns=m)`. -/
def Frame.rename (f : Frame) (m : List (String × String)) : Frame :=
  ⟨f.cols.map (fun p => (rename_map m p.1, p.2))⟩

/-- Raising column access `df[name]` (`KeyError` on a missing column). -/
def Frame.req (f : Frame) (n : String) : Except String Col :=
  match f.get n with
  | some v => .ok v
  | none => .error ("KeyError: " ++ n)

/-- Column selection `df[[n1, ..., nk]]`; raises on a missing column. -/
def Frame.selectE (f : Frame) (ns : List String) : Except String Frame := do
  let cs ← ns.mapM (fun n => match f.get n with
    | some v => Except.ok (n, v)
    | none => Except.error ("KeyError: " ++ n))
  return ⟨cs⟩

/-- Elementwise division of two columns. -/
def zip_div (x y : Col) : Col := List.zipWith (fun a b => a / b) x y

/-- Elementwise multiplication of two columns. -/
def zip_mul (x y : Col) : Col := List.zipWith (fun a b => a * b) x y

/-- The column layout produced by `utils.parse_quotes`: the exact
DataFrame literal of `utils.py` lines 190-195. -/
def parse_quotes_frame (o h l c a v : Col) : Frame :=
  ⟨[("Open", o), ("High", h), ("Low", l), ("Close", c), ("Adj Close", a), ("Volume", v)]⟩

/-- `utils.empty_df`: the all-empty placeholder table with the six standard
price columns (its index is empty, so every column is empty). -/
def empty_df : Frame :=
  ⟨[("Open", []), ("High", []), ("Low", []), ("Close", []), ("Adj Close", []), ("Volume", [])]⟩

/-- `utils.auto_adjust` (utils.py lines 136-153), embedded step by step:
ratio, the three scaled columns, the drop, the rename, and the double
final column selection. -/
def auto_adjust (data : Frame) : Except String Frame := do
  let close ← data.req "Close"
  let adjclose ← data.req "Adj Close"
  let ratio := zip_div close adjclose
  let o ← data.req "Open"
  let df1 := data.set "Adj Open" (zip_div o ratio)
  let hi ← df1.req "High"
  let df2 := df1.set "Adj High" (zip_div hi ratio)
  let lo ← df2.req "Low"
  let df3 := df2.set "Adj Low" (zip_div lo ratio)
  let df4 := df3.drop ["Open", "High", "Low", "Close"]
  let df5 := df4.rename [("Adj Open", "Open"), ("Adj High", "High"), ("Adj Low", "Low"), ("Adj Close", "Close")]
  let df6 ← df5.selectE ["Open", "High", "Low", "Close", "Volume"]
  df6.selectE ["Open", "High", "Low", "Close", "Volume"]

/-- `utils.back_adjust` (utils.py lines 156-174).  Note the drop list
contains `Adj Close` but not `Close`, and the rename list has no entry
for `Close`. -/
def back_adjust (data : Frame) : Except String Frame := do
  let adjclose ← data.req "Adj Close"
  let close ← data.req "Close"
  let ratio := zip_div adjclose close
  let o ← data.req "Open"
  let df1 := data.set "Adj Open" (zip_mul o ratio)
  let hi ← df1.req "High"
  let df2 := df1.set "Adj High" (zip_mul hi ratio)
  let lo ← df2.req "Low"
  let df3 := df2.set "Adj Low" (zip_mul lo ratio)
  let df4 := df3.drop ["Open", "High", "Low", "Adj Close"]
  let df5 := df4.rename [("Adj Open", "Open"), ("Adj High", "High"), ("Adj Low", "Low")]
  df5.selectE ["Open", "High", "Low", "Close", "Volume"]

/-! ### Shared per-symbol state (the `shared` module) -/

/-- Update-or-append on an association list: the dict assignment
`d[k] = v`. -/
def assocSet {α : Type} (l : List (String × α)) (k : String) (v : α) : List (String × α) :=
  if l.any (fun p => p.1 == k) then l.map (fun p => if p.1 == k then (k, v) else p)
  else l ++ [(k, v)]

/-- The process-wide stores `shared._DFS` and `shared._ERRORS`. -/
structure SharedState where
  dfs : List (String × Frame)
  errors : List (String × String)
deriving DecidableEq

/-- Record an error for a ticker: `shared._DFS[tk] = utils.empty_df()` and
`shared._ERRORS[tk] = msg` (base.py error branches). -/
def SharedState.record (st : SharedState) (tk : String) (msg : String) : SharedState :=
  ⟨assocSet st.dfs tk empty_df, assocSet st.errors tk msg⟩

/-! ### history: request parameters and the early error branches -/

/-- Lower-casing of an ASCII interval string (`interval.lower()`). -/
def str_lower (s : String) : String := String.mk (s.data.map Char.toLower)

/-- The interval actually placed in the outgoing request parameters
(base.py lines 148 and 152-154): `params["interval"] = interval.lower()`
followed by the 30m-to-15m substitution. -/
def request_interval (interval : String) : String :=
  if str_lower interval == "30m" then "15m" else str_lower interval

/-- The `chart.error` object of a response (only its description is used). -/
structure ChartErr where
  description : String

/-- The `chart` member of a decoded response body.  A missing key and a
JSON null are distinct in the source — subscripting a missing key raises
`KeyError`, a null is merely falsy — so each field is doubly optional:
the outer `none` models an absent key, `some none` a null value, and the
innermost value a present one (`some (some [])` an empty result list). -/
structure Chart (α : Type) where
  error : Option (Option ChartErr)
  result : Option (Option (List α))

/-- A decoded history response body.  `willBeRightBack` models the outage
banner test on the raw text; `chart = none` models a body without a
`chart` key. -/
structure Resp (α : Type) where
  willBeRightBack : Bool
  chart : Option (Chart α)

/-- The default error message of base.py line 181. -/
def err_default : String := "No data found for this date range, symbol may be delisted"

/-- Outcome of the early phase of `TickerBase.history` (base.py lines
170-206): a raised `RuntimeError`, an uncaught `KeyError` escaping from a
dict subscript, an early return of a table (after recording per-symbol
state), or continuation with parsed quotes. -/
inductive EarlyOutcome where
  | raised (msg : String)
  | keyError (key : String)
  | returned (df : Frame) (st : SharedState)
  | next (quotes : Frame) (st : SharedState)
deriving DecidableEq

/-- Whether the early phase ended in a graceful early return. -/
def EarlyOutcome.isReturned : EarlyOutcome → Bool
  | .returned _ _ => true
  | _ => false

/-- The early phase of `TickerBase.history`, lines 170-206: the outage
check, then `if "chart" in data and data["chart"]["error"]` — the error
subscript raises `KeyError` when the chart dict lacks the key — then
`elif "chart" not in data or data["chart"]["result"] is None or not
data["chart"]["result"]` — the result subscript likewise raises when the
key is absent (short-circuit spares it when the chart key itself is
missing) — and finally the guarded call to `utils.parse_quotes`
(abstracted as `parse`, with `none` modelling a raised exception). -/
def history_early {α : Type} (parse : α → Option Frame) (r : Resp α)
    (st : SharedState) (tk : String) : EarlyOutcome :=
  if r.willBeRightBack then .raised "*** YAHOO! FINANCE IS CURRENTLY DOWN! ***"
  else
    match r.chart with
    | some ch =>
      match ch.error with
      | none => .keyError "error"
      | some (some e) => .returned empty_df (st.record tk e.description)
      | some none =>
        match ch.result with
        | none => .keyError "result"
        | some none => .returned empty_df (st.record tk err_default)
        | some (some []) => .returned empty_df (st.record tk err_default)
        | some (some (d :: _)) =>
          match parse d with
          | none => .returned empty_df (st.record tk err_default)
          | some q => .next q st
    | none => .returned empty_df (st.record tk err_default)

/-! ### history: the 30-minute resampling correction -/

/-- The 30-minute bucket containing epoch second `t` (the bin boundaries of
`resample('30T')` on an epoch-seconds index). -/
def bucket30 (t : Nat) : Nat := t - t % 1800

/-- Runs of consecutive index entries falling in the same 30-minute bucket:
each entry is the bucket label with the run length.  `parse_quotes` sorts
its index, so consecutive grouping is bucket grouping. -/
def bucket_runs : List Nat → List (Nat × Nat)
  | [] => []
  | t :: rest =>
    match bucket_runs rest with
    | [] => [(bucket30 t, 1)]
    | (b, n) :: tail =>
      if bucket30 t == b then (bucket30 t, n + 1) :: tail
      else (bucket30 t, 1) :: (b, n) :: tail

/-- Split a column into chunks of the given lengths (the per-bucket groups
of a resample). -/
def chunks : List Nat → Col → List Col
  | [], _ => []
  | n :: ns, vs => vs.take n :: chunks ns (vs.drop n)

/-- Resampler aggregation `first` on one group. -/
def agg_first (g : Col) : ℚ := g.headI

/-- Resampler aggregation `last` on one group. -/
def agg_last (g : Col) : ℚ := g.getLastD 0

/-- Resampler aggregation `max` on one group. -/
def agg_max : Col → ℚ
  | [] => 0
  | x :: xs => xs.foldl max x

/-- Resampler aggregation `min` on one group. -/
def agg_min : Col → ℚ
  | [] => 0
  | x :: xs => xs.foldl min x

/-- Resampler aggregation `sum` on one group. -/
def agg_sum (g : Col) : ℚ := g.foldl (· + ·) 0

/-- Aggregate one column bucket-wise. -/
def resample_col (lens : List Nat) (f : Col → ℚ) (v : Col) : Col :=
  (chunks lens v).map f

/-- The 30-minute resampling block of `TickerBase.history` (base.py lines
208-226): rebuild the table with first/max/min/last/last/sum aggregations,
then two `try` blocks.  Both `try` blocks read `quotes2['Dividends']` in
the source — the second one assigns it to `Stock Splits` — and each is
skipped (`except: pass`) exactly when the `Dividends` column is absent,
which raises `KeyError`. -/
def resample30 (idx : List Nat) (q : Frame) : List Nat × Frame :=
  let runs := bucket_runs idx
  let labels := runs.map (fun p => p.1)
  let lens := runs.map (fun p => p.2)
  let base : Frame := ⟨[
    ("Open", resample_col lens agg_first (q.getD "Open")),
    ("High", resample_col lens agg_max (q.getD "High")),
    ("Low", resample_col lens agg_min (q.getD "Low")),
    ("Close", resample_col lens agg_last (q.getD "Close")),
    ("Adj Close", resample_col lens agg_last (q.getD "Adj Close")),
    ("Volume", resample_col lens agg_sum (q.getD "Volume"))]⟩
  let base2 := match q.get "Dividends" with
    | some d => base.set "Dividends" (resample_col lens agg_max d)
    | none => base
  let base3 := match q.get "Dividends" with
    | some d => base2.set "Stock Splits" (resample_col lens agg_max d)
    | none => base2
  (labels, base3)

/-! ### history: the adjust step and its exception handling -/

/-- The error message composed in the `except` branch of base.py lines
233-237. -/
def adj_err_msg (autoAdj : Bool) (e : String) : String :=
  if autoAdj then "auto_adjust failed with " ++ e
  else "back_adjust failed with " ++ e

/-- The body of the `try` block at base.py lines 228-232. -/
def adjust_step (autoAdj backAdj : Bool) (q : Frame) : Except String Frame :=
  if autoAdj then auto_adjust q
  else if backAdj then back_adjust q
  else .ok q

/-- The whole try/except of base.py lines 228-241: on success the adjusted
quotes flow on; on an exception the quotes variable keeps its unadjusted
value, the shared store records an `empty_df` placeholder and the error
message, and the message is also emitted as a console warning (the third
component).  There is no `return` in the except branch: the call
continues with the unadjusted quotes. -/
def adjust_phase (autoAdj backAdj : Bool) (q : Frame) (st : SharedState)
    (tk : String) : Frame × SharedState × Option String :=
  match adjust_step autoAdj backAdj q with
  | .ok q2 => (q2, st, none)
  | .error e =>
    (q, ⟨assocSet st.dfs tk empty_df, assocSet st.errors tk (adj_err_msg autoAdj e)⟩,
      some (adj_err_msg autoAdj e))

/-! ### history: caching and the actions flag -/

/-- The tail of `TickerBase.history` (base.py lines 277-281):
`self._history = df.copy()` happens before the actions columns are
dropped from the frame that is returned; `df.copy()` is a deep copy, so
the cached frame is the undropped one. -/
def history_tail (df : Frame) (actions : Bool) : Frame × Frame :=
  let hist := df
  let ret := if actions then df else df.drop ["Dividends", "Stock Splits"]
  (ret, hist)

/-- `TickerBase.get_dividends` (base.py lines 704-710) run against an
already-populated cache: the nonzero entries of the cached `Dividends`
column, or an empty list when the cache or the column is missing. -/
def get_dividends (hist : Option Frame) : List ℚ :=
  match hist with
  | some h =>
    match h.get "Dividends" with
    | some d => d.filter (fun x => !(x == 0))
    | none => []
  | none => []

/-- `TickerBase.get_splits` (base.py lines 712-718) run against an
already-populated cache. -/
def get_splits (hist : Option Frame) : List ℚ :=
  match hist with
  | some h =>
    match h.get "Stock Splits" with
    | some s => s.filter (fun x => !(x == 0))
    | none => []
  | none => []

/-! ### Template builder (`utils.build_template`) -/

/-- A node of the `FinancialTemplateStore` template: a key and a possibly
empty list of children.  An absent `children` entry in the JSON behaves
exactly like an empty list in the source (the loop body runs zero times),
so both are modelled by `[]`. -/
inductive TNode where
  | mk (key : String) (children : List TNode)

/-- The key of a template node. -/
def TNode.key : TNode → String
  | .mk k _ => k

/-- The children of a template node. -/
def TNode.children : TNode → List TNode
  | .mk _ c => c

/-- The innermost loop of `utils.build_template` (utils.py lines 99-102):
a level-3 node contributes its key only; its own children are never
visited. -/
def emit_l3 (child3 : TNode) : String × Nat := (child3.key, 3)

/-- The level-2 loop body (utils.py lines 94-102). -/
def emit_l2 (child2 : TNode) : List (String × Nat) :=
  (child2.key, 2) :: child2.children.map emit_l3

/-- The level-1 loop body (utils.py lines 89-102). -/
def emit_l1 (child1 : TNode) : List (String × Nat) :=
  (child1.key, 1) :: child1.children.flatMap emit_l2

/-- The root loop body (utils.py lines 84-102). -/
def emit_l0 (key : TNode) : List (String × Nat) :=
  (key.key, 0) :: key.children.flatMap emit_l1

/-- The emission order of `utils.build_template` (utils.py lines 84-102):
four explicitly nested loops, the node before its children, levels 0-3,
children of level-3 nodes never visited.  The source appends to the three
output lists in lockstep with one key/level pair per append, so the
triple is generated below from this single stream. -/
def template_emit (data : List TNode) : List (String × Nat) :=
  data.flatMap emit_l0

/-- `utils.build_template`: the TTM order (keys prefixed `trailing`), the
annual order (keys prefixed `annual`) and the level-of-detail list. -/
def build_template (data : List TNode) : List String × List String × List Nat :=
  ((template_emit data).map (fun p => "trailing" ++ p.1),
   (template_emit data).map (fun p => "annual" ++ p.1),
   (template_emit data).map (fun p => p.2))

/-! ### Template builder, specification side -/

mutual

/-- Depth-first pre-order traversal with explicit depth, as the spec
describes the template builder: emit the node, then its children at the
next depth.  Unlike the source it recurses to any depth. -/
def dfs_spec (d : Nat) : TNode → List (String × Nat)
  | .mk k cs => (k, d) :: dfs_spec_list (d + 1) cs

/-- Traversal of a sibling list in document order. -/
def dfs_spec_list (d : Nat) : List TNode → List (String × Nat)
  | [] => []
  | n :: ns => dfs_spec d n ++ dfs_spec_list d ns

end

/-- `height_le d n` holds when the tree under `n` has at most `d` levels
(so `height_le 4` means: root plus at most three child levels, the shape
the template builder fully walks). -/
def height_le : Nat → TNode → Bool
  | 0, _ => false
  | d + 1, .mk _ cs => cs.all (fun c => height_le d c)

/-- Cut a template tree below a given remaining depth: `trunc_at 0`
removes all children, `trunc_at (d+1)` keeps the node and truncates the
children at `d`.  `trunc_at 3` removes exactly the nodes the template
builder never visits. -/
def trunc_at : Nat → TNode → TNode
  | 0, .mk k _ => .mk k []
  | d + 1, .mk k cs => .mk k (cs.map (trunc_at d))

/-! ### Time-series reconciler (`utils.retreive_financial_details`) -/

/-- One observation of a `timeSeries` metric: its date, reported value and
period type. -/
structure Obs where
  asOfDate : String
  reportedValue : ℚ
  periodType : String
deriving DecidableEq

/-- One output row: the metric key under `index` plus one entry per
observation date (a Python dict, built by repeated assignment). -/
structure FinRow where
  index : String
  entries : List (String × ℚ)
deriving DecidableEq

/-- The row built for metric `k` from its observation list (utils.py lines
118-121): a dict keyed by `asOfDate` with `reportedValue` values;
repeated dates overwrite in place. -/
def row_of (k : String) (obs : List Obs) : FinRow :=
  ⟨k, obs.foldl (fun e o => assocSet e o.asOfDate o.reportedValue) []⟩

/-- One iteration of the loop of `utils.retreive_financial_details`
(utils.py lines 115-128): skip empty observation lists, build the row,
then classify it by the `periodType` of the loop variable left over from
the inner loop — the last observation; any other period type falls
through and the row is dropped. -/
def retreive_step (acc : List FinRow × List FinRow) (kv : String × List Obs) :
    List FinRow × List FinRow :=
  if kv.2.length > 0 then
    match kv.2.getLast? with
    | some lastObs =>
      if lastObs.periodType == "TTM" then (acc.1 ++ [row_of kv.1 kv.2], acc.2)
      else if lastObs.periodType == "12M" then (acc.1, acc.2 ++ [row_of kv.1 kv.2])
      else acc
    | none => acc
  else acc

/-- `utils.retreive_financial_details` (utils.py lines 105-129): loop over
the `timeSeries` mapping in order, appending classified rows to the TTM
and Annual accumulator lists. -/
def retreive_financial_details (ts : List (String × List Obs)) : List FinRow × List FinRow :=
  ts.foldl retreive_step ([], [])

/-- Specification-side description of the TTM output: the metrics whose
last observation has period type `TTM`, in mapping order. -/
def spec_ttm_rows (ts : List (String × List Obs)) : List FinRow :=
  ts.filterMap (fun kv =>
    match kv.2.getLast? with
    | some o => if o.periodType == "TTM" then some (row_of kv.1 kv.2) else none
    | none => none)

/-- Specification-side description of the Annual output: the metrics whose
last observation has period type `12M`, in mapping order. -/
def spec_annual_rows (ts : List (String × List Obs)) : List FinRow :=
  ts.filterMap (fun kv =>
    match kv.2.getLast? with
    | some o => if o.periodType == "12M" then some (row_of kv.1 kv.2) else none
    | none => none)

/-! ### Payload extractor (`utils.get_json`)

The normalization pass of `get_json` (utils.py lines 64-69) is textual: it
serializes the decoded tree, replaces every occurrence of the two
characters left-brace right-brace by `null`, applies
`re.sub` with the pattern brace quote-class `raw` quote-class colon
group1-lazy comma group2-lazy brace, replacing the whole match by group1,
and re-parses.  The JSON values, compact serialization (the `ujson`
default), both textual passes and a re-parser are embedded below.
Character constants are defined by code point to keep the text plain. -/

/-- Left brace. -/
def chLB : Char := Char.ofNat 123

/-- Right brace. -/
def chRB : Char := Char.ofNat 125

/-- Left square bracket. -/
def chLS : Char := Char.ofNat 91

/-- Right square bracket. -/
def chRS : Char := Char.ofNat 93

/-- Comma. -/
def chComma : Char := Char.ofNat 44

/-- Colon. -/
def chColon : Char := Char.ofNat 58

/-- Double quote. -/
def chDQ : Char := Char.ofNat 34

/-- Single quote. -/
def chSQ : Char := Char.ofNat 39

/-- Vertical bar. -/
def chPipe : Char := Char.ofNat 124

/-- Newline (never matched by the dot of the pattern). -/
def chNL : Char := Char.ofNat 10

/-- Minus sign. -/
def chMinus : Char := Char.ofNat 45

/-- Backslash. -/
def chBSl : Char := Char.ofNat 92

/-- A decoded JSON tree as handled by `get_json`. -/
inductive JVal where
  | null : JVal
  | num (n : ℤ) : JVal
  | str (s : String) : JVal
  | arr (xs : List JVal) : JVal
  | obj (fs : List (String × JVal)) : JVal

/-- The characters of the literal `null`. -/
def nullChars : List Char := ['n', 'u', 'l', 'l']

mutual

/-- Compact serialization of a JSON value (`ujson.dumps`: no spaces after
separators).  String scalars are emitted verbatim between double quotes;
the development only serializes strings that need no escaping. -/
def dumpsV : JVal → List Char
  | .null => nullChars
  | .num n => (toString n).data
  | .str s => chDQ :: s.data ++ [chDQ]
  | .arr xs => chLS :: dumpsArr xs ++ [chRS]
  | .obj fs => chLB :: dumpsObj fs ++ [chRB]

/-- Serialization of array members, comma separated. -/
def dumpsArr : List JVal → List Char
  | [] => []
  | [x] => dumpsV x
  | x :: y :: rest => dumpsV x ++ chComma :: dumpsArr (y :: rest)

/-- Serialization of object members, comma separated. -/
def dumpsObj : List (String × JVal) → List Char
  | [] => []
  | [kv] => chDQ :: kv.1.data ++ chDQ :: chColon :: dumpsV kv.2
  | kv :: p :: rest => chDQ :: kv.1.data ++ chDQ :: chColon :: dumpsV kv.2 ++ chComma :: dumpsObj (p :: rest)

end

/-- The textual pass `.replace` applied to the serialized tree: every
occurrence of left-brace right-brace becomes `null`, scanning left to
right without rescanning replacements. -/
def replace_empty : List Char → List Char
  | [] => []
  | [c] => [c]
  | c :: c2 :: rest =>
    if c = chLB ∧ c2 = chRB then nullChars ++ replace_empty rest
    else c :: replace_empty (c2 :: rest)

/-- Scan up to the first occurrence of `sep`, failing on a newline (the
dot of the pattern does not match newlines) or on exhaustion.  Returns
the consumed prefix and the remainder after the separator. -/
def split_upto (sep : Char) : List Char → Option (List Char × List Char)
  | [] => none
  | c :: rest =>
    if c = sep then some ([], rest)
    else if c = chNL then none
    else
      match split_upto sep rest with
      | some (a, b) => some (c :: a, b)
      | none => none

/-- The tail of the pattern after the colon: lazily matched group1 up to a
comma, then lazily matched group2 up to a closing brace.  Backtracks over
the comma choice exactly as the regex engine does: a comma after which no
closing brace is reachable is absorbed into group1.  Returns group1 and
the remainder after the closing brace. -/
def match_tail : List Char → Option (List Char × List Char)
  | [] => none
  | c :: rest =>
    if c = chNL then none
    else if c = chComma then
      match split_upto chRB rest with
      | some (_, rest2) => some ([], rest2)
      | none =>
        match match_tail rest with
        | some (g1, r) => some (c :: g1, r)
        | none => none
    else
      match match_tail rest with
      | some (g1, r) => some (c :: g1, r)
      | none => none

/-- The character class of the pattern around `raw`: single quote,
vertical bar or double quote. -/
def is_quote_class (c : Char) : Bool := c = chSQ || c = chPipe || c = chDQ

/-- Attempt to match the whole raw-collapsing pattern at the head of the
input: brace, quote class, `raw`, quote class, colon, then the lazy tail.
Returns group1 (the replacement) and the remainder after the match. -/
def match_raw : List Char → Option (List Char × List Char)
  | c0 :: c1 :: c2 :: c3 :: c4 :: c5 :: c6 :: rest =>
    if c0 = chLB ∧ is_quote_class c1 = true ∧ c2 = 'r' ∧ c3 = 'a' ∧ c4 = 'w'
        ∧ is_quote_class c5 = true ∧ c6 = chColon then
      match_tail rest
    else none
  | _ => none

theorem split_upto_length (sep : Char) : ∀ (l a b : List Char),
    split_upto sep l = some (a, b) → b.length < l.length := by
  intro l
  induction l with
  | nil => intro a b h; simp [split_upto] at h
  | cons c rest ih =>
    intro a b h
    simp only [split_upto] at h
    split at h
    · cases h; simp
    · split at h
      · exact absurd h (by simp)
      · cases hr : split_upto sep rest with
        | none => rw [hr] at h; cases h
        | some p =>
          rw [hr] at h
          cases h
          have := ih p.1 p.2 (by rw [hr])
          simp only [List.length_cons]
          omega

theorem match_tail_length : ∀ (l g r : List Char),
    match_tail l = some (g, r) → r.length < l.length := by
  intro l
  induction l with
  | nil => intro g r h; simp [match_tail] at h
  | cons c rest ih =>
    intro g r h
    simp only [match_tail] at h
    split at h
    · cases h
    · split at h
      · cases hs : split_upto chRB rest with
        | none =>
          rw [hs] at h
          cases hm : match_tail rest with
          | none => rw [hm] at h; cases h
          | some p =>
            rw [hm] at h
            cases h
            have := ih p.1 p.2 (by rw [hm])
            simp only [List.length_cons]
            omega
        | some p =>
          rw [hs] at h
          cases h
          have := split_upto_length chRB rest p.1 p.2 (by rw [hs])
          simp only [List.length_cons]
          omega
      · cases hm : match_tail rest with
        | none => rw [hm] at h; cases h
        | some p =>
          rw [hm] at h
          cases h
          have := ih p.1 p.2 (by rw [hm])
          simp only [List.length_cons]
          omega

theorem match_raw_length : ∀ (l g r : List Char),
    match_raw l = some (g, r) → r.length < l.length := by
  intro l g r h
  rcases l with _ | ⟨c0, _ | ⟨c1, _ | ⟨c2, _ | ⟨c3, _ | ⟨c4, _ | ⟨c5, _ | ⟨c6, rest⟩⟩⟩⟩⟩⟩⟩
  · simp [match_raw] at h
  · simp [match_raw] at h
  · simp [match_raw] at h
  · simp [match_raw] at h
  · simp [match_raw] at h
  · simp [match_raw] at h
  · simp [match_raw] at h
  · simp only [match_raw] at h
    split at h
    · have := match_tail_length rest g r h
      simp only [List.length_cons]
      omega
    · exact Option.noConfusion h

/-- The scan of the `re.sub` pass, driven by a character budget: where
the pattern matches, emit group1 and continue after the match (the
replacement is not rescanned); otherwise emit one character and move on.
Every step consumes at least one character, so a budget of the input
length never runs out (`match_raw_length`). -/
def raw_sub_go : Nat → List Char → List Char
  | 0, l => l
  | _ + 1, [] => []
  | f + 1, c :: rest =>
    match match_raw (c :: rest) with
    | some (g1, rest2) => g1 ++ raw_sub_go f rest2
    | none => c :: raw_sub_go f rest

/-- The `re.sub` pass over the whole serialized text. -/
def raw_sub (l : List Char) : List Char := raw_sub_go l.length l

/-- Scan a string literal up to the closing double quote (the development
only parses strings without escapes). -/
def split_quote : List Char → Option (List Char × List Char)
  | [] => none
  | c :: rest =>
    if c = chDQ then some ([], rest)
    else
      match split_quote rest with
      | some (a, b) => some (c :: a, b)
      | none => none

/-- Value of a digit list. -/
def digits_to_nat (ds : List Char) : Nat :=
  ds.foldl (fun acc c => 10 * acc + (c.toNat - 48)) 0

/-- Parse a natural number literal. -/
def parse_nat (l : List Char) : Option (Nat × List Char) :=
  let ds := l.takeWhile (fun c => c.isDigit)
  let r := l.dropWhile (fun c => c.isDigit)
  if ds.isEmpty then none else some (digits_to_nat ds, r)

mutual

/-- Fuel-driven recursive-descent parser for the compact JSON fragment
produced here: null, integers, strings, arrays and objects. -/
def parse_val (fuel : Nat) (l : List Char) : Option (JVal × List Char) :=
  match fuel with
  | 0 => none
  | f + 1 =>
    match l with
    | [] => none
    | c :: rest =>
      if c = chDQ then
        match split_quote rest with
        | some (s, r) => some (.str (String.mk s), r)
        | none => none
      else if c = chLB then
        match rest with
        | [] => none
        | c2 :: rest2 =>
          if c2 = chRB then some (.obj [], rest2)
          else
            match parse_members f (c2 :: rest2) with
            | some (fs, r) => some (.obj fs, r)
            | none => none
      else if c = chLS then
        match rest with
        | [] => none
        | c2 :: rest2 =>
          if c2 = chRS then some (.arr [], rest2)
          else
            match parse_items f (c2 :: rest2) with
            | some (xs, r) => some (.arr xs, r)
            | none => none
      else if c = 'n' then
        match rest with
        | 'u' :: 'l' :: 'l' :: r => some (.null, r)
        | _ => none
      else if c = chMinus then
        match parse_nat rest with
        | some (n, r) => some (.num (-(n : ℤ)), r)
        | none => none
      else if c.isDigit then
        match parse_nat (c :: rest) with
        | some (n, r) => some (.num (n : ℤ), r)
        | none => none
      else none

/-- Parse the members of a non-empty object, consuming the closing
brace. -/
def parse_members (fuel : Nat) (l : List Char) : Option (List (String × JVal) × List Char) :=
  match fuel with
  | 0 => none
  | f + 1 =>
    match l with
    | [] => none
    | c :: rest =>
      if c = chDQ then
        match split_quote rest with
        | some (k, r1) =>
          match r1 with
          | [] => none
          | c2 :: r2 =>
            if c2 = chColon then
              match parse_val f r2 with
              | some (v, r3) =>
                match r3 with
                | [] => none
                | c3 :: r4 =>
                  if c3 = chComma then
                    match parse_members f r4 with
                    | some (fs, r5) => some ((String.mk k, v) :: fs, r5)
                    | none => none
                  else if c3 = chRB then some ([(String.mk k, v)], r4)
                  else none
              | none => none
            else none
        | none => none
      else none

/-- Parse the items of a non-empty array, consuming the closing
bracket. -/
def parse_items (fuel : Nat) (l : List Char) : Option (List JVal × List Char) :=
  match fuel with
  | 0 => none
  | f + 1 =>
    match parse_val f l with
    | some (v, r) =>
      match r with
      | [] => none
      | c :: r2 =>
        if c = chComma then
          match parse_items f r2 with
          | some (xs, r3) => some (v :: xs, r3)
          | none => none
        else if c = chRS then some ([v], r2)
        else none
    | none => none

end

/-- `json.loads` on the rewritten text: a parse of the whole input, with
trailing characters rejected. -/
def loads (l : List Char) : Option JVal :=
  match parse_val (l.length + 1) l with
  | some (v, []) => some v
  | _ => none

/-- The normalization pass of `utils.get_json` (lines 64-69) as applied to
an already-decoded tree: serialize, replace empty braces by `null`,
apply the raw-collapsing substitution, re-parse.  `none` models a parse
failure of the rewritten text. -/
def get_json_normalize (j : JVal) : Option JVal :=
  loads (raw_sub (replace_empty (dumpsV j)))

/-- Modelled from the spec: the structural normalization the spec
describes — every map with a `raw` member collapses to that member's
value, every empty map becomes null, applied everywhere in the tree.
Fuel-driven; any fuel at least the tree depth computes the fixpoint. -/
def spec_normalize (fuel : Nat) (j : JVal) : JVal :=
  match fuel with
  | 0 => j
  | f + 1 =>
    match j with
    | .obj fs =>
      if fs.isEmpty then .null
      else
        match fs.find? (fun p => p.1 == "raw") with
        | some p => spec_normalize f p.2
        | none => .obj (fs.map (fun p => (p.1, spec_normalize f p.2)))
    | .arr xs => .arr (xs.map (spec_normalize f))
    | x => x

/-- Characters that play no structural role anywhere in the textual
normalization: not a quote, bar, brace, bracket, comma, colon, newline or
backslash.  String scalars made of such characters serialize verbatim and
interact with the two textual passes in a shape-independent way. -/
def plain_char (c : Char) : Bool :=
  !(c == chDQ || c == chSQ || c == chPipe || c == chLB || c == chRB
    || c == chLS || c == chRS || c == chComma || c == chColon || c == chNL || c == chBSl)

/-!
## Theorems

First general helper lemmas, then one theorem per claim (with witnesses
and counterexamples where required).
-/

theorem find?_filter_not_contains (cols : List (String × Col)) (n : String)
    (ns : List String) (h : ns.contains n = true) :
    (cols.filter (fun p => !(ns.contains p.1))).find? (fun p => p.1 == n) = none := by
  rw [List.find?_eq_none]
  intro x hx hxn
  rcases List.mem_filter.mp hx with ⟨hxc, hflt⟩
  have hx1 : x.1 ∉ ns := by simpa using hflt
  have hxeq : x.1 = n := by simpa using hxn
  have hn : n ∈ ns := by simpa using h
  exact hx1 (hxeq ▸ hn)

theorem Frame.get_drop_of_mem (f : Frame) (n : String) (ns : List String)
    (h : ns.contains n = true) : (f.drop ns).get n = none := by
  rcases f with ⟨cols⟩
  simp only [Frame.drop, Frame.get]
  rw [find?_filter_not_contains cols n ns h]
  rfl

/-- Claim C5: for every quote table with non-null Close and Adj Close,
auto-adjust replaces the Close column with the original Adj Close values
and divides each of Open, High and Low elementwise by the ratio
Close/AdjClose, returning exactly the columns Open, High, Low, Close,
Volume; on Close=100, AdjClose=90, Open=50 the new Open is 45 and the new
Close is 90. -/
theorem auto_adjust_replaces_close_and_scales (o h l c a v : Col) :
    auto_adjust (parse_quotes_frame o h l c a v) =
      .ok ⟨[("Open", zip_div o (zip_div c a)), ("High", zip_div h (zip_div c a)),
            ("Low", zip_div l (zip_div c a)), ("Close", a), ("Volume", v)]⟩ ∧
    auto_adjust (parse_quotes_frame [50] [50] [50] [100] [90] [1000]) =
      .ok ⟨[("Open", [45]), ("High", [45]), ("Low", [45]), ("Close", [90]), ("Volume", [1000])]⟩ := by
  constructor
  · rfl
  · have hz : zip_div [(50 : ℚ)] (zip_div [100] [90]) = [45] := by
      simp [zip_div]
      norm_num
    have hgen : auto_adjust (parse_quotes_frame [50] [50] [50] [100] [90] [1000]) =
        .ok ⟨[("Open", zip_div [50] (zip_div [100] [90])), ("High", zip_div [50] (zip_div [100] [90])),
              ("Low", zip_div [50] (zip_div [100] [90])), ("Close", [90]), ("Volume", [1000])]⟩ := rfl
    rw [hgen, hz]

/-- Claim C6 counterexample: on Close=100, AdjClose=90 the back-adjusted
table keeps the raw Close (100); the claim demands the original Adj
Close (90) there. -/
theorem back_adjust_close_cex :
    back_adjust (parse_quotes_frame [50] [50] [50] [100] [90] [1000]) =
      .ok ⟨[("Open", [45]), ("High", [45]), ("Low", [45]), ("Close", [100]), ("Volume", [1000])]⟩ ∧
    ([100] : Col) ≠ [90] := by
  constructor
  · have hz : zip_mul [(50 : ℚ)] (zip_div [90] [100]) = [45] := by
      simp [zip_mul, zip_div]
      norm_num
    have hgen : back_adjust (parse_quotes_frame [50] [50] [50] [100] [90] [1000]) =
        .ok ⟨[("Open", zip_mul [50] (zip_div [90] [100])), ("High", zip_mul [50] (zip_div [90] [100])),
              ("Low", zip_mul [50] (zip_div [90] [100])), ("Close", [100]), ("Volume", [1000])]⟩ := rfl
    rw [hgen, hz]
  · intro heq
    rw [List.cons.injEq] at heq
    have h100 : (100 : ℚ) = 90 := heq.1
    norm_num at h100

/-- Claim C6 (amended): back-adjust multiplies each of Open, High and Low
elementwise by the ratio AdjClose/Close, drops the Adj Close column and
keeps the Close column as the raw Close, returning the columns Open,
High, Low, Close, Volume. -/
theorem back_adjust_scales_ohl_keeps_close (o h l c a v : Col) :
    back_adjust (parse_quotes_frame o h l c a v) =
      .ok ⟨[("Open", zip_mul o (zip_div a c)), ("High", zip_mul h (zip_div a c)),
            ("Low", zip_mul l (zip_div a c)), ("Close", c), ("Volume", v)]⟩ := rfl

/-- Claim C8 (amended): when the adjust step raises, the exception is
caught and not re-raised, the failure is reported as a warning, and the
empty placeholder is recorded in the shared per-symbol store — but the
call continues with, and ultimately returns data derived from, the
unadjusted quotes. -/
theorem adjust_failure_caught (autoAdj backAdj : Bool) (q : Frame) (st : SharedState)
    (tk e : String) (hfail : adjust_step autoAdj backAdj q = .error e) :
    adjust_phase autoAdj backAdj q st tk =
      (q, ⟨assocSet st.dfs tk empty_df, assocSet st.errors tk (adj_err_msg autoAdj e)⟩,
        some (adj_err_msg autoAdj e)) := by
  simp [adjust_phase, hfail]

theorem adjust_failure_caught_witness :
    adjust_step true false ⟨[("Open", [1])]⟩ = .error "KeyError: Close" ∧
    adjust_phase true false ⟨[("Open", [1])]⟩ ⟨[], []⟩ "T" =
      (⟨[("Open", [1])]⟩, ⟨[("T", empty_df)], [("T", adj_err_msg true "KeyError: Close")]⟩,
        some (adj_err_msg true "KeyError: Close")) :=
  ⟨rfl, adjust_failure_caught true false ⟨[("Open", [1])]⟩ ⟨[], []⟩ "T" "KeyError: Close" rfl⟩

/-- Claim C8 counterexample: a history fetch whose auto-adjust step raises
does not degrade its result to the placeholder — the quotes flowing on to
the rest of the call (and to the caller) are the unadjusted, non-empty
quotes; only the shared store receives the placeholder. -/
theorem adjust_failure_returns_unadjusted_cex :
    (adjust_phase true false ⟨[("Open", [1]), ("High", [2]), ("Low", [3]), ("Close", [4]), ("Volume", [5])]⟩
        ⟨[], []⟩ "T").1 =
      ⟨[("Open", [1]), ("High", [2]), ("Low", [3]), ("Close", [4]), ("Volume", [5])]⟩ ∧
    (⟨[("Open", [1]), ("High", [2]), ("Low", [3]), ("Close", [4]), ("Volume", [5])]⟩ : Frame) ≠ empty_df ∧
    (adjust_phase true false ⟨[("Open", [1]), ("High", [2]), ("Low", [3]), ("Close", [4]), ("Volume", [5])]⟩
        ⟨[], []⟩ "T").2.1.dfs = [("T", empty_df)] := by
  refine ⟨rfl, ?_, rfl⟩
  intro heq
  have : ([(1 : ℚ)] : Col) = [] := congrArg (fun fr => fr.getD "Open") heq
  simp [Frame.getD, Frame.get, empty_df] at this

/-- Claim C1: with interval 30m the request is issued at 15m and the
quote table is resampled into 30-minute buckets; Open/High/Low/Close/Adj
Close/Volume follow first/max/min/last/last/sum, and the Dividends column
follows max — but the Stock Splits output is also computed from the
Dividends column (base.py line 224 reads `quotes2['Dividends']`), so on
the four 15-minute bars at 10:00-10:45 with Dividends [0,1,0,0] and Stock
Splits [7,0,0,2] the output Stock Splits column is [1,0] where the claim
requires the per-bucket max of the Stock Splits column, [7,2]. -/
theorem resample30_splits_from_dividends_cex :
    request_interval "30m" = "15m" ∧
    (resample30 [36000, 36900, 37800, 38700]
      ⟨[("Open", [10, 20, 30, 40]), ("High", [1, 2, 3, 4]), ("Low", [5, 6, 7, 8]),
        ("Close", [11, 12, 13, 14]), ("Adj Close", [21, 22, 23, 24]),
        ("Volume", [100, 200, 150, 50]), ("Dividends", [0, 1, 0, 0]), ("Stock Splits", [7, 0, 0, 2])]⟩).1 =
      [36000, 37800] ∧
    (resample30 [36000, 36900, 37800, 38700]
      ⟨[("Open", [10, 20, 30, 40]), ("High", [1, 2, 3, 4]), ("Low", [5, 6, 7, 8]),
        ("Close", [11, 12, 13, 14]), ("Adj Close", [21, 22, 23, 24]),
        ("Volume", [100, 200, 150, 50]), ("Dividends", [0, 1, 0, 0]), ("Stock Splits", [7, 0, 0, 2])]⟩).2.cols =
      [("Open", resample_col [2, 2] agg_first [10, 20, 30, 40]),
       ("High", resample_col [2, 2] agg_max [1, 2, 3, 4]),
       ("Low", resample_col [2, 2] agg_min [5, 6, 7, 8]),
       ("Close", resample_col [2, 2] agg_last [11, 12, 13, 14]),
       ("Adj Close", resample_col [2, 2] agg_last [21, 22, 23, 24]),
       ("Volume", resample_col [2, 2] agg_sum [100, 200, 150, 50]),
       ("Dividends", resample_col [2, 2] agg_max [0, 1, 0, 0]),
       ("Stock Splits", resample_col [2, 2] agg_max [0, 1, 0, 0])] ∧
    resample_col [2, 2] agg_first [10, 20, 30, 40] = [10, 30] ∧
    resample_col [2, 2] agg_max [1, 2, 3, 4] = [2, 4] ∧
    resample_col [2, 2] agg_min [5, 6, 7, 8] = [5, 7] ∧
    resample_col [2, 2] agg_last [11, 12, 13, 14] = [12, 14] ∧
    resample_col [2, 2] agg_last [21, 22, 23, 24] = [22, 24] ∧
    resample_col [2, 2] agg_sum [100, 200, 150, 50] = [300, 200] ∧
    resample_col [2, 2] agg_max [0, 1, 0, 0] = [1, 0] ∧
    resample_col [2, 2] agg_max [7, 0, 0, 2] = [7, 2] ∧
    ([1, 0] : Col) ≠ [7, 2] := by
  refine ⟨rfl, by decide, rfl, ?_, ?_, ?_, ?_, ?_, ?_, ?_, ?_, ?_⟩
  · norm_num [resample_col, chunks, agg_first, List.headI]
  · norm_num [resample_col, chunks, agg_max]
  · norm_num [resample_col, chunks, agg_min]
  · norm_num [resample_col, chunks, agg_last, List.getLastD]
  · norm_num [resample_col, chunks, agg_last, List.getLastD]
  · norm_num [resample_col, chunks, agg_sum]
  · norm_num [resample_col, chunks, agg_max]
  · norm_num [resample_col, chunks, agg_max]
  · intro heq
    rw [List.cons.injEq] at heq
    have h1 : (1 : ℚ) = 7 := heq.1
    norm_num at h1

/-- Claim C2 counterexample: a response whose chart carries a null error
and no `result` key at all — squarely in the claim's "chart.result is
missing" case — makes `data["chart"]["result"]` at base.py line 190
raise an uncaught `KeyError`: the call neither returns a table nor
records an error, contradicting "never raises an exception to the
caller". -/
theorem history_missing_result_raises_cex :
    history_early (fun _ : Unit => none) ⟨false, some ⟨some none, none⟩⟩ ⟨[], []⟩ "T" =
      .keyError "result" ∧
    (history_early (fun _ : Unit => none) ⟨false, some ⟨some none, none⟩⟩ ⟨[], []⟩ "T").isReturned =
      false := by
  exact ⟨rfl, rfl⟩

/-- Claim C2 (amended): a history call whose parsed response lacks the
chart key, or carries a present, non-null chart.error, or carries a null
chart.error together with a present chart.result that is null or empty,
or whose quote parsing raises, returns the empty table and records a
per-symbol error message, raising nothing; but a chart object lacking
the `error` key, or one whose null error is followed by a missing
`result` key, raises an uncaught `KeyError` to the caller instead. -/
theorem history_error_graceful_or_raises {α : Type} (parse : α → Option Frame) (r : Resp α)
    (st : SharedState) (tk : String) (hb : r.willBeRightBack = false) :
    (r.chart = none →
      history_early parse r st tk = .returned empty_df (st.record tk err_default)) ∧
    (∀ ch e, r.chart = some ch → ch.error = some (some e) →
      history_early parse r st tk = .returned empty_df (st.record tk e.description)) ∧
    (∀ ch, r.chart = some ch → ch.error = some none →
      (ch.result = some none ∨ ch.result = some (some []) ∨
        ∃ d ds, ch.result = some (some (d :: ds)) ∧ parse d = none) →
      history_early parse r st tk = .returned empty_df (st.record tk err_default)) ∧
    (∀ ch, r.chart = some ch → ch.error = none →
      history_early parse r st tk = .keyError "error") ∧
    (∀ ch, r.chart = some ch → ch.error = some none → ch.result = none →
      history_early parse r st tk = .keyError "result") := by
  refine ⟨?_, ?_, ?_, ?_, ?_⟩
  · intro hch
    simp [history_early, hb, hch]
  · intro ch e hch he
    simp [history_early, hb, hch, he]
  · intro ch hch he hres
    rcases hres with hres | hres | ⟨d, ds, hres, hp⟩
    · simp [history_early, hb, hch, he, hres]
    · simp [history_early, hb, hch, he, hres]
    · simp [history_early, hb, hch, he, hres, hp]
  · intro ch hch he
    simp [history_early, hb, hch, he]
  · intro ch hch he hres
    simp [history_early, hb, hch, he, hres]

theorem history_error_graceful_or_raises_witness :
    (⟨false, some ⟨some (some ⟨"Bad ticker"⟩), none⟩⟩ : Resp Unit).willBeRightBack = false ∧
    history_early (fun _ : Unit => none) ⟨false, some ⟨some (some ⟨"Bad ticker"⟩), none⟩⟩
      ⟨[], []⟩ "AAPL" =
      .returned empty_df (SharedState.record ⟨[], []⟩ "AAPL" "Bad ticker") :=
  ⟨rfl, (history_error_graceful_or_raises (fun _ : Unit => none)
      ⟨false, some ⟨some (some ⟨"Bad ticker"⟩), none⟩⟩ ⟨[], []⟩ "AAPL" rfl).2.1
    ⟨some (some ⟨"Bad ticker"⟩), none⟩ ⟨"Bad ticker"⟩ rfl rfl⟩

/-- Claim C10: with actions=False the returned table has the Dividends
and Stock Splits columns dropped, while the cached history assigned just
before the drop keeps the whole table — both action columns unchanged —
so get_dividends and get_splits read them afterwards. -/
theorem history_actions_cache (df : Frame) (d s : Col)
    (hd : df.get "Dividends" = some d) (hs : df.get "Stock Splits" = some s) :
    (history_tail df false).1.get "Dividends" = none ∧
    (history_tail df false).1.get "Stock Splits" = none ∧
    (history_tail df false).2 = df ∧
    get_dividends (some (history_tail df false).2) = d.filter (fun x => !(x == 0)) ∧
    get_splits (some (history_tail df false).2) = s.filter (fun x => !(x == 0)) := by
  refine ⟨?_, ?_, rfl, ?_, ?_⟩
  · exact Frame.get_drop_of_mem df "Dividends" ["Dividends", "Stock Splits"] (by decide)
  · exact Frame.get_drop_of_mem df "Stock Splits" ["Dividends", "Stock Splits"] (by decide)
  · simp [get_dividends, history_tail, hd]
  · simp [get_splits, history_tail, hs]

theorem history_actions_cache_witness :
    (⟨[("Close", [5]), ("Dividends", [0, 2]), ("Stock Splits", [3, 0])]⟩ : Frame).get "Dividends" = some [0, 2] ∧
    (⟨[("Close", [5]), ("Dividends", [0, 2]), ("Stock Splits", [3, 0])]⟩ : Frame).get "Stock Splits" = some [3, 0] ∧
    ((history_tail ⟨[("Close", [5]), ("Dividends", [0, 2]), ("Stock Splits", [3, 0])]⟩ false).1.get "Dividends" = none ∧
     (history_tail ⟨[("Close", [5]), ("Dividends", [0, 2]), ("Stock Splits", [3, 0])]⟩ false).1.get "Stock Splits" = none ∧
     (history_tail ⟨[("Close", [5]), ("Dividends", [0, 2]), ("Stock Splits", [3, 0])]⟩ false).2 =
       ⟨[("Close", [5]), ("Dividends", [0, 2]), ("Stock Splits", [3, 0])]⟩ ∧
     get_dividends (some (history_tail ⟨[("Close", [5]), ("Dividends", [0, 2]), ("Stock Splits", [3, 0])]⟩ false).2) =
       ([0, 2] : Col).filter (fun x => !(x == 0)) ∧
     get_splits (some (history_tail ⟨[("Close", [5]), ("Dividends", [0, 2]), ("Stock Splits", [3, 0])]⟩ false).2) =
       ([3, 0] : Col).filter (fun x => !(x == 0))) :=
  ⟨rfl, rfl,
    history_actions_cache ⟨[("Close", [5]), ("Dividends", [0, 2]), ("Stock Splits", [3, 0])]⟩
      [0, 2] [3, 0] rfl rfl⟩

theorem height_le_zero (n : TNode) : height_le 0 n = false := rfl

theorem dfs_spec_h1 (d : Nat) (n : TNode) (h : height_le 1 n = true) :
    dfs_spec d n = [(n.key, d)] := by
  cases n with
  | mk k cs =>
    cases cs with
    | nil => rfl
    | cons c cs2 =>
      exfalso
      simp only [height_le, List.all_cons, Bool.and_eq_true] at h
      exact Bool.false_ne_true h.1

theorem dfs_spec_list_h1 (d : Nat) (cs : List TNode) (h : cs.all (height_le 1) = true) :
    dfs_spec_list d cs = cs.map (fun c => (c.key, d)) := by
  induction cs with
  | nil => rfl
  | cons c cs2 ih =>
    simp only [List.all_cons, Bool.and_eq_true] at h
    simp [dfs_spec_list, dfs_spec_h1 d c h.1, ih h.2]

theorem dfs_spec_h2 (d : Nat) (n : TNode) (h : height_le 2 n = true) :
    dfs_spec d n = (n.key, d) :: n.children.map (fun c => (c.key, d + 1)) := by
  cases n with
  | mk k cs =>
    simp only [height_le] at h
    simp [dfs_spec, TNode.key, TNode.children, dfs_spec_list_h1 (d + 1) cs h]

theorem dfs_spec_list_h2 (d : Nat) (cs : List TNode) (h : cs.all (height_le 2) = true) :
    dfs_spec_list d cs =
      cs.flatMap (fun c => (c.key, d) :: c.children.map (fun c2 => (c2.key, d + 1))) := by
  induction cs with
  | nil => rfl
  | cons c cs2 ih =>
    simp only [List.all_cons, Bool.and_eq_true] at h
    simp [dfs_spec_list, dfs_spec_h2 d c h.1, ih h.2]

theorem dfs_spec_h3 (d : Nat) (n : TNode) (h : height_le 3 n = true) :
    dfs_spec d n = (n.key, d) :: n.children.flatMap (fun c1 =>
      (c1.key, d + 1) :: c1.children.map (fun c2 => (c2.key, d + 2))) := by
  cases n with
  | mk k cs =>
    simp only [height_le] at h
    simp [dfs_spec, TNode.key, TNode.children, dfs_spec_list_h2 (d + 1) cs h]

theorem dfs_spec_list_h3 (d : Nat) (cs : List TNode) (h : cs.all (height_le 3) = true) :
    dfs_spec_list d cs =
      cs.flatMap (fun c => (c.key, d) :: c.children.flatMap (fun c1 =>
        (c1.key, d + 1) :: c1.children.map (fun c2 => (c2.key, d + 2)))) := by
  induction cs with
  | nil => rfl
  | cons c cs2 ih =>
    simp only [List.all_cons, Bool.and_eq_true] at h
    simp [dfs_spec_list, dfs_spec_h3 d c h.1, ih h.2]

theorem dfs_spec_h4 (d : Nat) (n : TNode) (h : height_le 4 n = true) :
    dfs_spec d n = (n.key, d) :: n.children.flatMap (fun c1 =>
      (c1.key, d + 1) :: c1.children.flatMap (fun c2 =>
        (c2.key, d + 2) :: c2.children.map (fun c3 => (c3.key, d + 3)))) := by
  cases n with
  | mk k cs =>
    simp only [height_le] at h
    simp [dfs_spec, TNode.key, TNode.children, dfs_spec_list_h3 (d + 1) cs h]

theorem emit_l0_dfs (n : TNode) (h : height_le 4 n = true) : emit_l0 n = dfs_spec 0 n := by
  rw [dfs_spec_h4 0 n h]
  simp only [emit_l0, Nat.zero_add]
  congr 1

theorem template_emit_dfs (data : List TNode) (hd : data.all (height_le 4) = true) :
    template_emit data = dfs_spec_list 0 data := by
  induction data with
  | nil => rfl
  | cons n rest ih =>
    simp only [List.all_cons, Bool.and_eq_true] at hd
    have h1 : template_emit (n :: rest) = emit_l0 n ++ template_emit rest := rfl
    rw [h1, emit_l0_dfs n hd.1, ih hd.2]
    rfl

/-- Claim C3: for template trees of root plus at most three child levels,
the template builder returns three sequences of equal length, namely the
depth-first pre-order emission stream (each node before its children, in
document order, unsorted and undeduplicated) with the TTM keys prefixed
by `trailing`, the annual keys prefixed by `annual`, and the levels
carrying each node's depth (0 at the roots). -/
theorem build_template_is_preorder (data : List TNode) (hd : data.all (height_le 4) = true) :
    build_template data =
      ((dfs_spec_list 0 data).map (fun p => "trailing" ++ p.1),
       (dfs_spec_list 0 data).map (fun p => "annual" ++ p.1),
       (dfs_spec_list 0 data).map (fun p => p.2)) ∧
    (build_template data).1.length = (build_template data).2.1.length ∧
    (build_template data).2.1.length = (build_template data).2.2.length := by
  refine ⟨?_, ?_, ?_⟩
  · rw [build_template, template_emit_dfs data hd]
  · simp [build_template]
  · simp [build_template]

theorem build_template_is_preorder_witness :
    ([TNode.mk "T" [TNode.mk "O" [], TNode.mk "E" [TNode.mk "D" [TNode.mk "B" []]]]].all (height_le 4)) = true ∧
    (build_template [TNode.mk "T" [TNode.mk "O" [], TNode.mk "E" [TNode.mk "D" [TNode.mk "B" []]]]] =
      ((dfs_spec_list 0 [TNode.mk "T" [TNode.mk "O" [], TNode.mk "E" [TNode.mk "D" [TNode.mk "B" []]]]]).map
        (fun p => "trailing" ++ p.1),
       (dfs_spec_list 0 [TNode.mk "T" [TNode.mk "O" [], TNode.mk "E" [TNode.mk "D" [TNode.mk "B" []]]]]).map
        (fun p => "annual" ++ p.1),
       (dfs_spec_list 0 [TNode.mk "T" [TNode.mk "O" [], TNode.mk "E" [TNode.mk "D" [TNode.mk "B" []]]]]).map
        (fun p => p.2)) ∧
     (build_template [TNode.mk "T" [TNode.mk "O" [], TNode.mk "E" [TNode.mk "D" [TNode.mk "B" []]]]]).1.length =
       (build_template [TNode.mk "T" [TNode.mk "O" [], TNode.mk "E" [TNode.mk "D" [TNode.mk "B" []]]]]).2.1.length ∧
     (build_template [TNode.mk "T" [TNode.mk "O" [], TNode.mk "E" [TNode.mk "D" [TNode.mk "B" []]]]]).2.1.length =
       (build_template [TNode.mk "T" [TNode.mk "O" [], TNode.mk "E" [TNode.mk "D" [TNode.mk "B" []]]]]).2.2.length) :=
  ⟨rfl, build_template_is_preorder
    [TNode.mk "T" [TNode.mk "O" [], TNode.mk "E" [TNode.mk "D" [TNode.mk "B" []]]]] rfl⟩

theorem flatMap_congr_mem {α β : Type} {f g : α → List β} :
    ∀ l : List α, (∀ a ∈ l, f a = g a) → l.flatMap f = l.flatMap g := by
  intro l h
  induction l with
  | nil => rfl
  | cons x xs ih =>
    simp only [List.flatMap_cons]
    rw [h x (by simp), ih (fun a ha => h a (by simp [ha]))]

theorem trunc_key (d : Nat) (n : TNode) : (trunc_at d n).key = n.key := by
  cases d <;> cases n <;> rfl

theorem trunc_children_zero (n : TNode) : (trunc_at 0 n).children = [] := by
  cases n
  rfl

theorem trunc_children_succ (d : Nat) (n : TNode) :
    (trunc_at (d + 1) n).children = n.children.map (trunc_at d) := by
  cases n
  rfl

theorem emit_l2_trunc (c : TNode) : emit_l2 (trunc_at 1 c) = emit_l2 c := by
  simp only [emit_l2, trunc_key, trunc_children_succ, List.map_map]
  congr 1
  apply List.map_congr_left
  intro x _
  simp only [Function.comp, emit_l3, trunc_key]

theorem emit_l1_trunc (c : TNode) : emit_l1 (trunc_at 2 c) = emit_l1 c := by
  simp only [emit_l1, trunc_key, trunc_children_succ, List.flatMap_map]
  congr 1
  apply flatMap_congr_mem
  intro x _
  exact emit_l2_trunc x

theorem emit_l0_trunc (c : TNode) : emit_l0 (trunc_at 3 c) = emit_l0 c := by
  simp only [emit_l0, trunc_key, trunc_children_succ, List.flatMap_map]
  congr 1
  apply flatMap_congr_mem
  intro x _
  exact emit_l1_trunc x

theorem height_le_trunc (d : Nat) : ∀ n : TNode, height_le (d + 1) (trunc_at d n) = true := by
  induction d with
  | zero =>
    intro n
    cases n with
    | mk k cs => rfl
  | succ d ih =>
    intro n
    cases n with
    | mk k cs =>
      simp only [trunc_at, height_le, List.all_map, List.all_eq_true]
      intro c _
      exact ih c

/-- Claim C9: the template builder walks only four levels; children of a
level-3 node are silently omitted — the outputs on any tree coincide with
the outputs on the tree truncated below level 3, and that truncated tree
is within the four-level shape. -/
theorem build_template_ignores_below_level3 (data : List TNode) :
    build_template data = build_template (data.map (trunc_at 3)) ∧
    (data.map (trunc_at 3)).all (height_le 4) = true := by
  constructor
  · have hemit : template_emit (data.map (trunc_at 3)) = template_emit data := by
      simp only [template_emit, List.flatMap_map]
      apply flatMap_congr_mem data
      intro x _
      rw [emit_l0_trunc]
    rw [build_template, build_template, hemit]
  · simp only [List.all_map, List.all_eq_true]
    intro c _
    exact height_le_trunc 3 c

theorem retreive_foldl (ts : List (String × List Obs)) :
    ∀ acc : List FinRow × List FinRow,
      ts.foldl retreive_step acc = (acc.1 ++ spec_ttm_rows ts, acc.2 ++ spec_annual_rows ts) := by
  induction ts with
  | nil =>
    intro acc
    simp [spec_ttm_rows, spec_annual_rows]
  | cons kv rest ih =>
    intro acc
    rw [List.foldl_cons, ih]
    cases hlast : kv.2.getLast? with
    | none =>
      have hnil : kv.2 = [] := List.getLast?_eq_none_iff.mp hlast
      simp [retreive_step, spec_ttm_rows, spec_annual_rows, List.filterMap_cons, hlast, hnil]
    | some o =>
      have hne : kv.2 ≠ [] := by
        intro hn
        rw [hn] at hlast
        simp at hlast
      have hlen : kv.2.length > 0 := List.length_pos.mpr hne
      by_cases ht : o.periodType = "TTM"
      · simp [retreive_step, spec_ttm_rows, spec_annual_rows, List.filterMap_cons,
          hlast, hlen, ht]
      · by_cases ha : o.periodType = "12M"
        · simp [retreive_step, spec_ttm_rows, spec_annual_rows, List.filterMap_cons,
            hlast, hlen, ht, ha]
        · simp [retreive_step, spec_ttm_rows, spec_annual_rows, List.filterMap_cons,
            hlast, hlen, ht, ha]

/-- Claim C4: the time-series reconciler puts a metric's row into the TTM
output exactly when the last observation's periodType is TTM, into the
Annual output exactly when it is 12M, and silently drops (no row, no
error) every metric whose list is empty or whose last periodType is
neither — the outputs are precisely the order-preserving filters of the
mapping by those conditions. -/
theorem retreive_classifies_by_last_period (ts : List (String × List Obs)) :
    retreive_financial_details ts = (spec_ttm_rows ts, spec_annual_rows ts) := by
  rw [retreive_financial_details, retreive_foldl ts ([], [])]
  simp

theorem raw_sub_go_nil (f : Nat) : raw_sub_go f [] = [] := by
  cases f <;> rfl

theorem raw_sub_go_cons_match (f : Nat) (c : Char) (rest g1 rest2 : List Char)
    (h : match_raw (c :: rest) = some (g1, rest2)) :
    raw_sub_go (f + 1) (c :: rest) = g1 ++ raw_sub_go f rest2 := by
  simp [raw_sub_go, h]

theorem raw_sub_go_cons_none (f : Nat) (c : Char) (rest : List Char)
    (h : match_raw (c :: rest) = none) :
    raw_sub_go (f + 1) (c :: rest) = c :: raw_sub_go f rest := by
  simp [raw_sub_go, h]

theorem match_raw_none_head (c : Char) (rest : List Char) (hc : (c == chLB) = false) :
    match_raw (c :: rest) = none := by
  have hc2 : c ≠ chLB := by simpa using hc
  rcases rest with _ | ⟨c1, _ | ⟨c2, _ | ⟨c3, _ | ⟨c4, _ | ⟨c5, _ | ⟨c6, rest7⟩⟩⟩⟩⟩⟩
  · rfl
  · rfl
  · rfl
  · rfl
  · rfl
  · rfl
  · simp only [match_raw]
    rw [if_neg (fun hand => hc2 hand.1)]

theorem replace_empty_all (l : List Char) (h : l.all (fun c => !(c == chLB)) = true) :
    replace_empty l = l := by
  induction l with
  | nil => rfl
  | cons c rest ih =>
    rw [List.all_cons, Bool.and_eq_true] at h
    cases rest with
    | nil => rfl
    | cons c2 rest2 =>
      have hc : c ≠ chLB := by simpa using h.1
      simp only [replace_empty]
      rw [if_neg (fun hand => hc hand.1)]
      rw [ih h.2]

theorem raw_sub_go_all (l : List Char) :
    ∀ f : Nat, l.all (fun c => !(c == chLB)) = true → raw_sub_go f l = l := by
  induction l with
  | nil =>
    intro f _
    exact raw_sub_go_nil f
  | cons c rest ih =>
    intro f h
    rw [List.all_cons, Bool.and_eq_true] at h
    have hc : (c == chLB) = false := by
      cases hb : c == chLB
      · rfl
      · exfalso
        rw [hb] at h
        exact Bool.false_ne_true h.1
    cases f with
    | zero => rfl
    | succ f2 =>
      rw [raw_sub_go_cons_none f2 c rest (match_raw_none_head c rest hc)]
      rw [ih f2 h.2]

theorem split_upto_all (sep : Char) (m t : List Char)
    (hm : m.all (fun c => !(c == sep) && !(c == chNL)) = true) :
    split_upto sep (m ++ sep :: t) = some (m, t) := by
  induction m with
  | nil => simp [split_upto]
  | cons c m2 ih =>
    simp only [List.all_cons, Bool.and_eq_true, Bool.not_eq_eq_eq_not, Bool.not_true,
      beq_eq_false_iff_ne, ne_eq] at hm
    obtain ⟨⟨hne1, hne2⟩, hrest⟩ := hm
    simp only [List.cons_append, split_upto]
    rw [if_neg hne1, if_neg hne2]
    simp [ih hrest]

theorem match_tail_all (g m t : List Char)
    (hg : g.all (fun c => !(c == chComma) && !(c == chNL)) = true)
    (hm : m.all (fun c => !(c == chRB) && !(c == chNL)) = true) :
    match_tail (g ++ (chComma :: (m ++ (chRB :: t)))) = some (g, t) := by
  induction g with
  | nil =>
    have hcn : ¬ chComma = chNL := by decide
    simp only [List.nil_append, match_tail]
    simp [split_upto_all chRB m t hm, hcn]
  | cons c g2 ih =>
    simp only [List.all_cons, Bool.and_eq_true, Bool.not_eq_eq_eq_not, Bool.not_true,
      beq_eq_false_iff_ne, ne_eq] at hg
    obtain ⟨⟨hne1, hne2⟩, hrest⟩ := hg
    simp only [List.cons_append, List.append_eq, match_tail]
    rw [if_neg hne2, if_neg hne1, ih hrest]

theorem split_quote_all (m t : List Char) (hm : m.all (fun c => !(c == chDQ)) = true) :
    split_quote (m ++ chDQ :: t) = some (m, t) := by
  induction m with
  | nil => simp [split_quote]
  | cons c m2 ih =>
    simp only [List.all_cons, Bool.and_eq_true, Bool.not_eq_eq_eq_not, Bool.not_true,
      beq_eq_false_iff_ne, ne_eq] at hm
    obtain ⟨hne, hrest⟩ := hm
    simp only [List.cons_append, split_quote]
    rw [if_neg hne]
    simp [ih hrest]

theorem parse_val_str (f : Nat) (m t : List Char)
    (hm : m.all (fun c => !(c == chDQ)) = true) :
    parse_val (f + 1) (chDQ :: (m ++ chDQ :: t)) = some (.str (String.mk m), t) := by
  simp only [parse_val]
  simp [split_quote_all m t hm]

theorem all_imp {p q : Char → Bool} (h : ∀ c, p c = true → q c = true) :
    ∀ l : List Char, l.all p = true → l.all q = true := by
  intro l hl
  rw [List.all_eq_true] at hl ⊢
  exact fun c hc => h c (hl c hc)

theorem plain_char_spec {c : Char} (h : plain_char c = true) :
    (c == chDQ) = false ∧ (c == chSQ) = false ∧ (c == chPipe) = false ∧ (c == chLB) = false ∧
    (c == chRB) = false ∧ (c == chLS) = false ∧ (c == chRS) = false ∧ (c == chComma) = false ∧
    (c == chColon) = false ∧ (c == chNL) = false ∧ (c == chBSl) = false := by
  simp only [plain_char, Bool.not_or, Bool.and_eq_true, Bool.not_eq_true'] at h
  tauto

theorem replace_empty_cons_cons (c c2 : Char) (rest : List Char)
    (h : ¬(c = chLB ∧ c2 = chRB)) :
    replace_empty (c :: c2 :: rest) = c :: replace_empty (c2 :: rest) := by
  simp only [replace_empty]
  rw [if_neg h]

theorem dumps_raw_first (s : List Char) :
    dumpsV (.obj [("raw", .str (String.mk s)), ("fmt", .str "x")]) =
      chLB :: chDQ :: 'r' :: 'a' :: 'w' :: chDQ :: chColon ::
        ((chDQ :: (s ++ [chDQ])) ++
          (chComma :: ([chDQ, 'f', 'm', 't', chDQ, chColon, chDQ, 'x', chDQ] ++ (chRB :: [])))) := by
  have hraw : ("raw" : String).data = ['r', 'a', 'w'] := rfl
  have hfmt : ("fmt" : String).data = ['f', 'm', 't'] := rfl
  have hx : ("x" : String).data = ['x'] := rfl
  have hdata : (String.mk s).data = s := rfl
  simp [dumpsV, dumpsObj, hraw, hfmt, hx, hdata]

theorem dumps_raw_second (s : List Char) :
    dumpsV (.obj [("fmt", .str "x"), ("raw", .str (String.mk s))]) =
      chLB :: chDQ :: 'f' :: 'm' :: 't' :: chDQ :: chColon :: chDQ :: 'x' :: chDQ :: chComma ::
        chDQ :: 'r' :: 'a' :: 'w' :: chDQ :: chColon :: chDQ :: (s ++ [chDQ, chRB]) := by
  have hraw : ("raw" : String).data = ['r', 'a', 'w'] := rfl
  have hfmt : ("fmt" : String).data = ['f', 'm', 't'] := rfl
  have hx : ("x" : String).data = ['x'] := rfl
  have hdata : (String.mk s).data = s := rfl
  simp [dumpsV, dumpsObj, hraw, hfmt, hx, hdata]

theorem get_json_raw_first_collapses (s : List Char) (hs : s.all plain_char = true) :
    get_json_normalize (.obj [("raw", .str (String.mk s)), ("fmt", .str "x")]) =
      some (.str (String.mk s)) := by
  have hsDQ : s.all (fun c => !(c == chDQ)) = true :=
    all_imp (fun c hc => by rw [(plain_char_spec hc).1]; rfl) s hs
  have hsLB : s.all (fun c => !(c == chLB)) = true :=
    all_imp (fun c hc => by rw [(plain_char_spec hc).2.2.2.1]; rfl) s hs
  have hsCN : s.all (fun c => !(c == chComma) && !(c == chNL)) = true :=
    all_imp (fun c hc => by
      rw [(plain_char_spec hc).2.2.2.2.2.2.2.1, (plain_char_spec hc).2.2.2.2.2.2.2.2.2.1]
      rfl) s hs
  have hall : (chDQ :: 'r' :: 'a' :: 'w' :: chDQ :: chColon ::
      ((chDQ :: (s ++ [chDQ])) ++
        (chComma :: ([chDQ, 'f', 'm', 't', chDQ, chColon, chDQ, 'x', chDQ] ++ (chRB :: []))))).all
      (fun c => !(c == chLB)) = true := by
    simp only [List.all_cons, List.all_append, hsLB]
    decide
  have hrep : replace_empty (chLB :: chDQ :: 'r' :: 'a' :: 'w' :: chDQ :: chColon ::
        ((chDQ :: (s ++ [chDQ])) ++
          (chComma :: ([chDQ, 'f', 'm', 't', chDQ, chColon, chDQ, 'x', chDQ] ++ (chRB :: []))))) =
      chLB :: chDQ :: 'r' :: 'a' :: 'w' :: chDQ :: chColon ::
        ((chDQ :: (s ++ [chDQ])) ++
          (chComma :: ([chDQ, 'f', 'm', 't', chDQ, chColon, chDQ, 'x', chDQ] ++ (chRB :: [])))) := by
    rw [replace_empty_cons_cons chLB chDQ _ (by decide)]
    rw [replace_empty_all _ hall]
  have hg : (chDQ :: (s ++ [chDQ])).all (fun c => !(c == chComma) && !(c == chNL)) = true := by
    simp only [List.all_cons, List.all_append, hsCN]
    decide
  have hmconst : ([chDQ, 'f', 'm', 't', chDQ, chColon, chDQ, 'x', chDQ]).all
      (fun c => !(c == chRB) && !(c == chNL)) = true := by decide
  have hmr : match_raw (chLB :: chDQ :: 'r' :: 'a' :: 'w' :: chDQ :: chColon ::
        ((chDQ :: (s ++ [chDQ])) ++
          (chComma :: ([chDQ, 'f', 'm', 't', chDQ, chColon, chDQ, 'x', chDQ] ++ (chRB :: []))))) =
      match_tail ((chDQ :: (s ++ [chDQ])) ++
          (chComma :: ([chDQ, 'f', 'm', 't', chDQ, chColon, chDQ, 'x', chDQ] ++ (chRB :: [])))) := rfl
  have hmt : match_tail ((chDQ :: (s ++ [chDQ])) ++
        (chComma :: ([chDQ, 'f', 'm', 't', chDQ, chColon, chDQ, 'x', chDQ] ++ (chRB :: [])))) =
      some (chDQ :: (s ++ [chDQ]), []) :=
    match_tail_all (chDQ :: (s ++ [chDQ]))
      [chDQ, 'f', 'm', 't', chDQ, chColon, chDQ, 'x', chDQ] [] hg hmconst
  have hrawsub : raw_sub (chLB :: chDQ :: 'r' :: 'a' :: 'w' :: chDQ :: chColon ::
        ((chDQ :: (s ++ [chDQ])) ++
          (chComma :: ([chDQ, 'f', 'm', 't', chDQ, chColon, chDQ, 'x', chDQ] ++ (chRB :: []))))) =
      chDQ :: (s ++ [chDQ]) := by
    rw [raw_sub, List.length_cons]
    rw [raw_sub_go_cons_match _ _ _ _ _ (hmr.trans hmt)]
    rw [raw_sub_go_nil]
    simp
  have hlen : (chDQ :: (s ++ [chDQ])).length + 1 = (s.length + 2) + 1 := by simp
  have hp : parse_val ((chDQ :: (s ++ [chDQ])).length + 1) (chDQ :: (s ++ [chDQ])) =
      some (.str (String.mk s), []) := by
    rw [hlen]
    exact parse_val_str (s.length + 2) s [] hsDQ
  have hloads : loads (chDQ :: (s ++ [chDQ])) = some (.str (String.mk s)) := by
    rw [loads, hp]
  rw [get_json_normalize, dumps_raw_first s, hrep, hrawsub, hloads]

theorem get_json_raw_not_first_unchanged (s : List Char) (hs : s.all plain_char = true) :
    raw_sub (replace_empty (dumpsV (.obj [("fmt", .str "x"), ("raw", .str (String.mk s))]))) =
      dumpsV (.obj [("fmt", .str "x"), ("raw", .str (String.mk s))]) := by
  have hsLB : s.all (fun c => !(c == chLB)) = true :=
    all_imp (fun c hc => by rw [(plain_char_spec hc).2.2.2.1]; rfl) s hs
  have hall : (chDQ :: 'f' :: 'm' :: 't' :: chDQ :: chColon :: chDQ :: 'x' :: chDQ :: chComma ::
      chDQ :: 'r' :: 'a' :: 'w' :: chDQ :: chColon :: chDQ :: (s ++ [chDQ, chRB])).all
      (fun c => !(c == chLB)) = true := by
    simp only [List.all_cons, List.all_append, hsLB]
    decide
  have hrep : replace_empty (chLB :: chDQ :: 'f' :: 'm' :: 't' :: chDQ :: chColon :: chDQ :: 'x' ::
        chDQ :: chComma :: chDQ :: 'r' :: 'a' :: 'w' :: chDQ :: chColon :: chDQ :: (s ++ [chDQ, chRB])) =
      chLB :: chDQ :: 'f' :: 'm' :: 't' :: chDQ :: chColon :: chDQ :: 'x' ::
        chDQ :: chComma :: chDQ :: 'r' :: 'a' :: 'w' :: chDQ :: chColon :: chDQ :: (s ++ [chDQ, chRB]) := by
    rw [replace_empty_cons_cons chLB chDQ _ (by decide)]
    rw [replace_empty_all _ hall]
  have hmr : match_raw (chLB :: chDQ :: 'f' :: 'm' :: 't' :: chDQ :: chColon :: chDQ :: 'x' ::
        chDQ :: chComma :: chDQ :: 'r' :: 'a' :: 'w' :: chDQ :: chColon :: chDQ :: (s ++ [chDQ, chRB])) =
      none := rfl
  have hrawsub : raw_sub (chLB :: chDQ :: 'f' :: 'm' :: 't' :: chDQ :: chColon :: chDQ :: 'x' ::
        chDQ :: chComma :: chDQ :: 'r' :: 'a' :: 'w' :: chDQ :: chColon :: chDQ :: (s ++ [chDQ, chRB])) =
      chLB :: chDQ :: 'f' :: 'm' :: 't' :: chDQ :: chColon :: chDQ :: 'x' ::
        chDQ :: chComma :: chDQ :: 'r' :: 'a' :: 'w' :: chDQ :: chColon :: chDQ :: (s ++ [chDQ, chRB]) := by
    rw [raw_sub, List.length_cons]
    rw [raw_sub_go_cons_none _ _ _ hmr]
    rw [raw_sub_go_all _ _ hall]
  rw [dumps_raw_second s, hrep, hrawsub]

/-- Claim C7 counterexample: a map in which the `raw` key is not the
first serialized field — here the inner map with fields `fmt` then `raw`
— is left intact by the normalization pass of `get_json`, while the
claimed everywhere-replacement would collapse it to its raw value; the
two resulting trees differ. -/
theorem get_json_raw_not_first_cex :
    get_json_normalize (.obj [("a", .obj [("fmt", .str "x"), ("raw", .num 5)])]) =
      some (.obj [("a", .obj [("fmt", .str "x"), ("raw", .num 5)])]) ∧
    spec_normalize 3 (.obj [("a", .obj [("fmt", .str "x"), ("raw", .num 5)])]) =
      .obj [("a", .num 5)] ∧
    JVal.obj [("a", JVal.obj [("fmt", JVal.str "x"), ("raw", JVal.num 5)])] ≠
      JVal.obj [("a", JVal.num 5)] := by
  refine ⟨rfl, rfl, ?_⟩
  intro h
  simp at h

/-- Claim C7 (amended): the normalization pass of `get_json` is a textual
rewrite of the serialized tree, not a structural one.  A map whose first
serialized field is `raw` (followed by another field) collapses to the
raw value; a map carrying `raw` in a non-first position passes through
the two textual passes unchanged; an empty map becomes null; and the
two-character brace sequence is replaced by `null` even inside a string
scalar, corrupting it to the string `null`. -/
theorem get_json_textual_normalization (s : List Char) (hs : s.all plain_char = true) :
    get_json_normalize (.obj [("raw", .str (String.mk s)), ("fmt", .str "x")]) =
      some (.str (String.mk s)) ∧
    raw_sub (replace_empty (dumpsV (.obj [("fmt", .str "x"), ("raw", .str (String.mk s))]))) =
      dumpsV (.obj [("fmt", .str "x"), ("raw", .str (String.mk s))]) ∧
    get_json_normalize (.obj [("emptyfield", .obj [])]) = some (.obj [("emptyfield", .null)]) ∧
    get_json_normalize (.obj [("b", .str (String.mk [chLB, chRB]))]) =
      some (.obj [("b", .str "null")]) :=
  ⟨get_json_raw_first_collapses s hs, get_json_raw_not_first_unchanged s hs, rfl, rfl⟩

theorem get_json_textual_normalization_witness :
    (['5'].all plain_char) = true ∧
    (get_json_normalize (.obj [("raw", .str (String.mk ['5'])), ("fmt", .str "x")]) =
      some (.str (String.mk ['5'])) ∧
    raw_sub (replace_empty (dumpsV (.obj [("fmt", .str "x"), ("raw", .str (String.mk ['5']))]))) =
      dumpsV (.obj [("fmt", .str "x"), ("raw", .str (String.mk ['5']))]) ∧
    get_json_normalize (.obj [("emptyfield", .obj [])]) = some (.obj [("emptyfield", .null)]) ∧
    get_json_normalize (.obj [("b", .str (String.mk [chLB, chRB]))]) =
      some (.obj [("b", .str "null")])) :=
  ⟨by decide, get_json_textual_normalization ['5'] (by decide)⟩

end YF
